import Mathlib

/-!
Shallow embedding of the todo-list core of `src/src/main.rs` (a Yew todo
app).  Rust strings are modelled as `List Char`; Rust `str::trim` is
modelled by `rust_trim` (dropping whitespace characters from both ends);
the opaque unique-id generator `Uuid::new_v4()` is modelled by an explicit
`freshId` argument, as the spec treats identifier generation as an opaque
unique-ID source; the fallible local-storage read/write operations are
modelled by explicit `Except` outcomes.
-/

set_option autoImplicit false

namespace TodoApp

/-- The `Todo` record of `main.rs`: `{id: String, title: String, completed: bool}`. -/
structure Todo where
  id : List Char
  title : List Char
  completed : Bool
deriving DecidableEq

/-- Rust `str::trim`: remove leading and trailing whitespace characters.
(Rust trims Unicode `White_Space`; the claims only involve ASCII
whitespace, covered by `Char.isWhitespace`.) -/
def rust_trim (s : List Char) : List Char :=
  ((s.dropWhile Char.isWhitespace).reverse.dropWhile Char.isWhitespace).reverse

/-- `fn create_new_todo(todos: &[Todo], title: String) -> Vec<Todo>`:
copies the slice and pushes a new `Todo` with a generated id,
the given title and `completed: false`.  The `Uuid::new_v4()` call is
modelled by the explicit `freshId` argument. -/
def create_new_todo (todos : List Todo) (freshId : List Char) (title : List Char) : List Todo :=
  todos ++ [{ id := freshId, title := title, completed := false }]

/-- `fn is_valid_title(title: &str) -> bool { !title.is_empty() }`. -/
def is_valid_title (title : List Char) : Bool :=
  !title.isEmpty

/-- `fn read_input_title(input) -> String { input.value().trim().to_string() }`:
given the raw input value, return its trimmed form. -/
def read_input_title (value : List Char) : List Char :=
  rust_trim value

/-- `fn delete_todo(todos: &[Todo], id: &str) -> Vec<Todo>`:
keep exactly the todos whose id differs from `id`. -/
def delete_todo (todos : List Todo) (id : List Char) : List Todo :=
  todos.filter (fun todo => todo.id != id)

/-- `fn toggle_todo(todos: &[Todo], id: &str) -> Vec<Todo>`:
map over the list, flipping `completed` on every todo whose id matches. -/
def toggle_todo (todos : List Todo) (id : List Char) : List Todo :=
  todos.map (fun todo =>
    if todo.id = id then { todo with completed := !todo.completed } else todo)

/-- `fn update_todo_title(todos: &[Todo], id: &str, title: &str) -> Vec<Todo>`:
map over the list, replacing `title` on every todo whose id matches. -/
def update_todo_title (todos : List Todo) (id : List Char) (title : List Char) : List Todo :=
  todos.map (fun todo =>
    if todo.id = id then { todo with title := title } else todo)

/-- `fn save_todos_to_storage_with_error`: on a write error `e` the error
handle is set to `Some` of the text `Storage error: ` followed by the
Debug rendering of `e`; on success it is set to `None`.  The fallible
`LocalStorage::set` is modelled by the explicit `writeResult` outcome; the
Debug rendering of the error is modelled as the text of the error. -/
def save_todos_to_storage_with_error (writeResult : Except (List Char) Unit) :
    Option (List Char) :=
  match writeResult with
  | Except.error e => some (("Storage error: ".toList) ++ e)
  | Except.ok _ => none

/-- The reactive state of the `app` component that the claims concern:
the todos handle and the storage-error handle. -/
structure AppState where
  todos : List Todo
  storage_error : Option (List Char)
deriving DecidableEq

/-- `fn update_todos(todos_handle, new_todos, error_handle)`: first
persists `new_todos` (recording or clearing the error message), then sets
the in-memory list to `new_todos`. -/
def update_todos (st : AppState) (new_todos : List Todo)
    (writeResult : Except (List Char) Unit) : AppState :=
  { st with
    storage_error := save_todos_to_storage_with_error writeResult,
    todos := new_todos }

/-- The `use_state` initialiser of `app`: `LocalStorage::get(STORAGE_KEY)`
yields the stored list on success; on any failure the error handle is set
to `Some` of the text `Failed to load todos: ` followed by the Debug
rendering of the error, and the list starts empty.  The fallible read is
modelled by the explicit `loadResult`. -/
def load_initial_state (loadResult : Except (List Char) (List Todo)) : AppState :=
  match loadResult with
  | Except.ok ts => { todos := ts, storage_error := none }
  | Except.error e =>
      { todos := [], storage_error := some (("Failed to load todos: ".toList) ++ e) }

/-- The list transformation of the `on_submit` handler: read and trim the input
value, and only when the result is a valid title append a new todo. -/
def on_submit_add (todos : List Todo) (freshId : List Char) (value : List Char) :
    List Todo :=
  let title := read_input_title value
  if is_valid_title title then create_new_todo todos freshId title else todos

/-- The list transformation of the `on_update` handler: read and trim the edit
input value, and only when the result is a valid title rename the entry. -/
def on_update_rename (todos : List Todo) (id : List Char) (value : List Char) :
    List Todo :=
  let title := read_input_title value
  if is_valid_title title then update_todo_title todos id title else todos

/-- The ids occurring in a list, in order. -/
def ids (todos : List Todo) : List (List Char) :=
  todos.map Todo.id

/-- Fixture mirroring the unit tests of the repo (`Task 1`, not completed). -/
def task1 : Todo :=
  { id := ("1".toList), title := ("Task 1".toList), completed := false }

/-- Fixture mirroring the unit tests of the repo (`Task 2`, completed). -/
def task2 : Todo :=
  { id := ("2".toList), title := ("Task 2".toList), completed := true }

/-! ### Helper lemmas -/

theorem mem_ids_iff {id : List Char} {L : List Todo} :
    id ∈ ids L ↔ ∃ a ∈ L, a.id = id := by
  simp [ids]

theorem ne_of_not_mem_ids {id : List Char} {L : List Todo}
    (h : id ∉ ids L) : ∀ a ∈ L, a.id ≠ id := by
  intro a ha heq
  exact h (mem_ids_iff.mpr ⟨a, ha, heq⟩)

theorem delete_todo_of_not_mem {L : List Todo} {id : List Char}
    (h : id ∉ ids L) : delete_todo L id = L := by
  apply List.filter_eq_self.mpr
  intro a ha
  simpa [bne_iff_ne] using ne_of_not_mem_ids h a ha

theorem toggle_todo_of_not_mem {L : List Todo} {id : List Char}
    (h : id ∉ ids L) : toggle_todo L id = L := by
  have hcongr :
      toggle_todo L id = List.map (fun todo => todo) L :=
    List.map_congr_left (fun a ha => by simp [ne_of_not_mem_ids h a ha])
  rw [hcongr, List.map_id' L]

theorem update_todo_title_of_not_mem {L : List Todo} {id t : List Char}
    (h : id ∉ ids L) : update_todo_title L id t = L := by
  have hcongr :
      update_todo_title L id t = List.map (fun todo => todo) L :=
    List.map_congr_left (fun a ha => by simp [ne_of_not_mem_ids h a ha])
  rw [hcongr, List.map_id' L]

theorem exists_decomp_of_mem_ids {L : List Todo} {id : List Char}
    (hnodup : (ids L).Nodup) (hmem : id ∈ ids L) :
    ∃ l₁ a l₂, L = l₁ ++ a :: l₂ ∧ a.id = id ∧ id ∉ ids l₁ ∧ id ∉ ids l₂ := by
  obtain ⟨a, ha, rfl⟩ := mem_ids_iff.mp hmem
  obtain ⟨l₁, l₂, rfl⟩ := List.append_of_mem ha
  rw [ids, List.map_append, List.map_cons, List.nodup_append] at hnodup
  refine ⟨l₁, a, l₂, rfl, rfl, ?_, ?_⟩
  · intro hmem₁
    exact hnodup.2.2 hmem₁ (List.mem_cons_self _ _)
  · exact (List.nodup_cons.mp hnodup.2.1).1

theorem toggle_todo_append (l₁ l₂ : List Todo) (id : List Char) :
    toggle_todo (l₁ ++ l₂) id = toggle_todo l₁ id ++ toggle_todo l₂ id :=
  List.map_append _ _ _

theorem update_todo_title_append (l₁ l₂ : List Todo) (id t : List Char) :
    update_todo_title (l₁ ++ l₂) id t =
      update_todo_title l₁ id t ++ update_todo_title l₂ id t :=
  List.map_append _ _ _

theorem delete_todo_append (l₁ l₂ : List Todo) (id : List Char) :
    delete_todo (l₁ ++ l₂) id = delete_todo l₁ id ++ delete_todo l₂ id :=
  List.filter_append _ _

theorem is_valid_title_of_ne_nil {s : List Char} (h : s ≠ []) :
    is_valid_title s = true := by
  simp [is_valid_title, List.isEmpty_iff, h]

theorem not_mem_ids_delete_todo (L : List Todo) (id : List Char) :
    id ∉ ids (delete_todo L id) := by
  intro hmem
  obtain ⟨a, ha, hid⟩ := mem_ids_iff.mp hmem
  have hne := (List.mem_filter.mp ha).2
  simp only [bne_iff_ne, ne_eq] at hne
  exact hne hid

theorem delete_todo_single_match {a : Todo} {id : List Char} (hid : a.id = id) :
    delete_todo [a] id = [] := by
  simp [delete_todo, List.filter_cons, hid]

theorem toggle_todo_cons (a : Todo) (l : List Todo) (id : List Char) :
    toggle_todo (a :: l) id =
      (if a.id = id then { a with completed := !a.completed } else a) ::
        toggle_todo l id :=
  rfl

theorem update_todo_title_cons (a : Todo) (l : List Todo) (id t : List Char) :
    update_todo_title (a :: l) id t =
      (if a.id = id then { a with title := t } else a) ::
        update_todo_title l id t :=
  rfl

/-! ### Claim theorems -/

/-- C1: the claim says `is_valid_title` is false on the empty string and on
whitespace-only strings such as `"   "`, true on `"x"`, and in general
equivalent to `trimmed(text).length > 0`.  Evaluating the code: it is
false on `""` and true on `"x"` as claimed, but on the whitespace-only
string `"   "` it returns `true` even though the trimmed form is empty,
because `is_valid_title` only tests `!title.is_empty()` without trimming —
contradicting the own test of the repo, named
`should_invalidate_empty_or_whitespace_title`. -/
theorem c1_is_valid_title_eval :
    is_valid_title [] = false ∧
    is_valid_title ("x".toList) = true ∧
    is_valid_title ("   ".toList) = true ∧
    rust_trim ("   ".toList) = [] := by
  decide

/-- C4: for every list `L` and every id not present in `L`,
`delete_todo L id` returns a list equal to `L`. -/
theorem c4_delete_todo_absent (L : List Todo) (id : List Char)
    (h : id ∉ ids L) : delete_todo L id = L :=
  delete_todo_of_not_mem h

theorem c4_delete_todo_absent_witness :
    ("3".toList) ∉ ids [⟨"1".toList, "a".toList, false⟩, ⟨"2".toList, "b".toList, true⟩] ∧
    delete_todo [⟨"1".toList, "a".toList, false⟩, ⟨"2".toList, "b".toList, true⟩] ("3".toList)
      = [⟨"1".toList, "a".toList, false⟩, ⟨"2".toList, "b".toList, true⟩] :=
  ⟨by decide, c4_delete_todo_absent _ _ (by decide)⟩

/-- C5: for every list `L` and every id present in `L`, applying
`toggle_todo` with that id twice in succession returns a list equal to the
original `L`. -/
theorem c5_toggle_todo_involution (L : List Todo) (id : List Char)
    (h : id ∈ ids L) :
    toggle_todo (toggle_todo L id) id = L := by
  clear h
  induction L with
  | nil => rfl
  | cons a t ih =>
    rw [toggle_todo_cons, toggle_todo_cons, ih]
    by_cases hid : a.id = id
    · subst hid
      simp [Bool.not_not]
    · simp [hid]

theorem c5_toggle_todo_involution_witness :
    ("1".toList) ∈ ids [⟨"1".toList, "Task 1".toList, false⟩] ∧
    toggle_todo (toggle_todo [⟨"1".toList, "Task 1".toList, false⟩] ("1".toList)) ("1".toList)
      = [⟨"1".toList, "Task 1".toList, false⟩] :=
  ⟨by decide, c5_toggle_todo_involution _ _ (by decide)⟩

/-- C10: for every list `L` (duplicate ids allowed) and every id,
`delete_todo L id` removes every entry whose id matches, and `delete_todo`
is idempotent. -/
theorem c10_delete_todo_removes_all_idempotent (L : List Todo) (id : List Char) :
    id ∉ ids (delete_todo L id) ∧
    delete_todo (delete_todo L id) id = delete_todo L id := by
  constructor
  · exact not_mem_ids_delete_todo L id
  · apply List.filter_eq_self.mpr
    intro a ha
    exact (List.mem_filter.mp ha).2

theorem c10_delete_todo_removes_all_idempotent_witness :
    delete_todo
        (delete_todo [⟨"1".toList, "a".toList, false⟩, ⟨"1".toList, "b".toList, true⟩] ("1".toList))
        ("1".toList)
      = delete_todo [⟨"1".toList, "a".toList, false⟩, ⟨"1".toList, "b".toList, true⟩] ("1".toList) :=
  (c10_delete_todo_removes_all_idempotent
    [⟨"1".toList, "a".toList, false⟩, ⟨"1".toList, "b".toList, true⟩] ("1".toList)).2

/-- C2: for every list `L` and raw title whose trimmed form is non-empty,
the submit pipeline (trim, validate, `create_new_todo`) yields a list of
length `len(L)+1`; the first `len(L)` elements are `L` unchanged; the last
element carries the trimmed title, `completed = false`, and the freshly
generated id, which (the generator being an opaque unique-ID source)
differs from every id already in `L`. -/
theorem c2_add_appends_trimmed_todo (L : List Todo) (freshId value : List Char)
    (hvalid : rust_trim value ≠ []) (hfresh : freshId ∉ ids L) :
    (on_submit_add L freshId value).length = L.length + 1 ∧
    (on_submit_add L freshId value).take L.length = L ∧
    (on_submit_add L freshId value).getLast? =
      some { id := freshId, title := rust_trim value, completed := false } ∧
    ∀ a ∈ L, a.id ≠ freshId := by
  have hadd : on_submit_add L freshId value =
      L ++ [{ id := freshId, title := rust_trim value, completed := false }] := by
    rw [on_submit_add]
    simp [read_input_title, is_valid_title_of_ne_nil hvalid, create_new_todo]
  refine ⟨?_, ?_, ?_, ne_of_not_mem_ids hfresh⟩
  · rw [hadd, List.length_append]
    rfl
  · rw [hadd, List.take_left]
  · rw [hadd, List.getLast?_concat]

theorem c2_add_appends_trimmed_todo_witness :
    rust_trim ("  New Task ".toList) ≠ [] ∧
    ("2".toList) ∉ ids [task1] ∧
    ((on_submit_add [task1] ("2".toList) ("  New Task ".toList)).length
        = [task1].length + 1 ∧
      (on_submit_add [task1] ("2".toList) ("  New Task ".toList)).take [task1].length
        = [task1] ∧
      (on_submit_add [task1] ("2".toList) ("  New Task ".toList)).getLast?
        = some { id := ("2".toList), title := rust_trim ("  New Task ".toList), completed := false } ∧
      ∀ a ∈ [task1], a.id ≠ ("2".toList)) :=
  ⟨by decide, by decide,
    c2_add_appends_trimmed_todo [task1] ("2".toList)
      ("  New Task ".toList) (by decide) (by decide)⟩

/-- C8: `update_todos` always sets the in-memory list to the new list; when
the storage write fails an error message is recorded, and when it succeeds
the error message is cleared. -/
theorem c8_update_todos_state (st : AppState) (new_todos : List Todo)
    (w : Except (List Char) Unit) :
    (update_todos st new_todos w).todos = new_todos ∧
    (∀ e, w = Except.error e →
      (update_todos st new_todos w).storage_error
        = some (("Storage error: ".toList) ++ e)) ∧
    (w = Except.ok () →
      (update_todos st new_todos w).storage_error = none) := by
  refine ⟨rfl, ?_, ?_⟩
  · intro e he
    subst he
    rfl
  · intro he
    subst he
    rfl

theorem c8_update_todos_state_witness :
    (update_todos ⟨[], none⟩ [⟨"1".toList, "a".toList, false⟩]
        (Except.error ("QuotaExceeded".toList))).todos
      = [⟨"1".toList, "a".toList, false⟩] ∧
    (update_todos ⟨[], none⟩ [⟨"1".toList, "a".toList, false⟩]
        (Except.error ("QuotaExceeded".toList))).storage_error
      = some (("Storage error: ".toList) ++ ("QuotaExceeded".toList)) ∧
    (update_todos ⟨[], some ("old".toList)⟩ [] (Except.ok ())).storage_error = none :=
  ⟨(c8_update_todos_state ⟨[], none⟩ [⟨"1".toList, "a".toList, false⟩]
      (Except.error ("QuotaExceeded".toList))).1,
    (c8_update_todos_state ⟨[], none⟩ [⟨"1".toList, "a".toList, false⟩]
      (Except.error ("QuotaExceeded".toList))).2.1 ("QuotaExceeded".toList) rfl,
    (c8_update_todos_state ⟨[], some ("old".toList)⟩ [] (Except.ok ())).2.2 rfl⟩

/-- C9: at startup a failed load yields the empty list with a load error
recorded, and a successful load yields the deserialized list with no
error. -/
theorem c9_load_initial_state (r : Except (List Char) (List Todo)) :
    (∀ e, r = Except.error e →
      load_initial_state r
        = { todos := [], storage_error := some (("Failed to load todos: ".toList) ++ e) }) ∧
    (∀ ts, r = Except.ok ts →
      load_initial_state r = { todos := ts, storage_error := none }) := by
  refine ⟨?_, ?_⟩
  · intro e he
    subst he
    rfl
  · intro ts hts
    subst hts
    rfl

theorem c9_load_initial_state_witness :
    load_initial_state (Except.error ("KeyNotFound".toList))
      = { todos := [], storage_error := some (("Failed to load todos: ".toList) ++ ("KeyNotFound".toList)) } ∧
    load_initial_state (Except.ok [⟨"1".toList, "a".toList, true⟩])
      = { todos := [⟨"1".toList, "a".toList, true⟩], storage_error := none } :=
  ⟨(c9_load_initial_state (Except.error ("KeyNotFound".toList))).1 ("KeyNotFound".toList) rfl,
    (c9_load_initial_state (Except.ok [⟨"1".toList, "a".toList, true⟩])).2
      [⟨"1".toList, "a".toList, true⟩] rfl⟩

/-- C3: for every list `L` with pairwise-distinct ids and every id present
in `L`, `delete_todo L id` has length `len(L)-1`, contains no entry with
that id, and the remaining elements keep their relative order (the result
is a sublist of `L`) and are otherwise unchanged (every non-matching entry
of `L` survives). -/
theorem c3_delete_todo_present (L : List Todo) (id : List Char)
    (hnodup : (ids L).Nodup) (hmem : id ∈ ids L) :
    (delete_todo L id).length = L.length - 1 ∧
    id ∉ ids (delete_todo L id) ∧
    (delete_todo L id).Sublist L ∧
    ∀ t ∈ L, t.id ≠ id → t ∈ delete_todo L id := by
  obtain ⟨l₁, a, l₂, rfl, hid, h₁, h₂⟩ := exists_decomp_of_mem_ids hnodup hmem
  have hdel : delete_todo (l₁ ++ a :: l₂) id = l₁ ++ l₂ := by
    rw [show (a :: l₂) = [a] ++ l₂ from rfl, delete_todo_append, delete_todo_append,
      delete_todo_of_not_mem h₁, delete_todo_of_not_mem h₂,
      delete_todo_single_match hid]
    simp
  refine ⟨?_, not_mem_ids_delete_todo _ _, List.filter_sublist _, ?_⟩
  · rw [hdel]
    simp only [List.length_append, List.length_cons]
    omega
  · intro t ht hne
    exact List.mem_filter.mpr ⟨ht, by simp [bne_iff_ne, hne]⟩

theorem c3_delete_todo_present_witness :
    (ids [task1, task2]).Nodup ∧ ("1".toList) ∈ ids [task1, task2] ∧
    (delete_todo [task1, task2] ("1".toList)).length = [task1, task2].length - 1 :=
  ⟨by decide, by decide,
    (c3_delete_todo_present [task1, task2] ("1".toList) (by decide) (by decide)).1⟩

/-- C6: for every list `L` with pairwise-distinct ids, `toggle_todo`
preserves length; when the id is present it splits `L` around the unique
matching entry and flips only the `completed` flag of that entry, keeping its
id and title and every other entry (and the order) unchanged; when the id
is absent the result equals `L`. -/
theorem c6_toggle_todo_frame (L : List Todo) (id : List Char)
    (hnodup : (ids L).Nodup) :
    (toggle_todo L id).length = L.length ∧
    (id ∈ ids L → ∃ l₁ a l₂, L = l₁ ++ a :: l₂ ∧ a.id = id ∧
      id ∉ ids l₁ ∧ id ∉ ids l₂ ∧
      toggle_todo L id = l₁ ++ ({ a with completed := !a.completed }) :: l₂) ∧
    (id ∉ ids L → toggle_todo L id = L) := by
  refine ⟨List.length_map _ _, ?_, fun h => toggle_todo_of_not_mem h⟩
  intro hmem
  obtain ⟨l₁, a, l₂, rfl, hid, h₁, h₂⟩ := exists_decomp_of_mem_ids hnodup hmem
  refine ⟨l₁, a, l₂, rfl, hid, h₁, h₂, ?_⟩
  rw [toggle_todo_append, toggle_todo_cons, toggle_todo_of_not_mem h₁,
    toggle_todo_of_not_mem h₂, if_pos hid]

theorem c6_toggle_todo_frame_witness :
    (ids [task1, task2]).Nodup ∧
    (toggle_todo [task1, task2] ("1".toList)).length = [task1, task2].length :=
  ⟨by decide, (c6_toggle_todo_frame [task1, task2] ("1".toList) (by decide)).1⟩

/-- C7: for every list `L` with pairwise-distinct ids, every id and every
raw title whose trimmed form is non-empty, the rename pipeline (trim,
validate, `update_todo_title`) replaces exactly the title of the matching entry
with the trimmed title, keeping its id and completed flag and every other
entry (and the order) unchanged; when the id is absent the result equals
`L`. -/
theorem c7_rename_frame (L : List Todo) (id value : List Char)
    (hnodup : (ids L).Nodup) (hvalid : rust_trim value ≠ []) :
    (id ∈ ids L → ∃ l₁ a l₂, L = l₁ ++ a :: l₂ ∧ a.id = id ∧
      id ∉ ids l₁ ∧ id ∉ ids l₂ ∧
      on_update_rename L id value = l₁ ++ ({ a with title := rust_trim value }) :: l₂) ∧
    (id ∉ ids L → on_update_rename L id value = L) := by
  have hren : on_update_rename L id value = update_todo_title L id (rust_trim value) := by
    rw [on_update_rename]
    simp [read_input_title, is_valid_title_of_ne_nil hvalid]
  constructor
  · intro hmem
    obtain ⟨l₁, a, l₂, rfl, hid, h₁, h₂⟩ := exists_decomp_of_mem_ids hnodup hmem
    refine ⟨l₁, a, l₂, rfl, hid, h₁, h₂, ?_⟩
    rw [hren, update_todo_title_append, update_todo_title_cons,
      update_todo_title_of_not_mem h₁, update_todo_title_of_not_mem h₂, if_pos hid]
  · intro h
    rw [hren, update_todo_title_of_not_mem h]

theorem c7_rename_frame_witness :
    (ids [task1, task2]).Nodup ∧ rust_trim (" Updated Task ".toList) ≠ [] ∧
    on_update_rename [task1, task2] ("9".toList) (" Updated Task ".toList) = [task1, task2] :=
  ⟨by decide, by decide,
    (c7_rename_frame [task1, task2] ("9".toList) (" Updated Task ".toList)
      (by decide) (by decide)).2 (by decide)⟩

end TodoApp
